import Mathlib

/-!
Verification development for src/malloc_free.c, a minimal sbrk-based
allocator.  The file embeds the final versions of the C definitions
(`union header`, `malloc` at line 79, `get_free_block`, `free`) as pure
Lean functions over an explicit allocator state.

Modelling conventions:
* Addresses and byte counts are `Nat`; the program break is a `Nat`.
* The C type sizes follow the LP64 data model (x86-64 Linux, the
  platform of the code), made explicit as named constants below.
* The block list is modelled as the chain of header records reachable
  from `head` by following `next` links, in link order; the C variables
  `head` and `tail` are carried as explicit `Option Nat` address fields
  and updated exactly where the C code updates them.
* `sbrk` growth failure is an input of `malloc` (`sbrk_ok`); `sbrk(0)`
  is a pure read of the break, and the shrinking call in `free` always
  succeeds, as the C code assumes.
* Lock usage is observable as the `Bool` component of each result:
  `true` exactly when the C code acquires `global_malloc_lock`.
-/

namespace MallocFree

/-- Size in bytes of the C type size_t under the LP64 data model. -/
def sizeof_size_t : Nat := 8

/-- Alignment in bytes of size_t under LP64. -/
def align_size_t : Nat := 8

/-- Size in bytes of the C type unsigned int under LP64. -/
def sizeof_unsigned : Nat := 4

/-- Alignment in bytes of unsigned int under LP64. -/
def align_unsigned : Nat := 4

/-- Size in bytes of an object pointer under LP64. -/
def sizeof_ptr : Nat := 8

/-- Alignment in bytes of an object pointer under LP64. -/
def align_ptr : Nat := 8

/-- Round n up to the next multiple of a (C struct layout rule). -/
def alignUp (n a : Nat) : Nat := ((n + a - 1) / a) * a

/-- Offset of the member size in struct s of union header (line 66). -/
def off_size : Nat := 0

/-- Offset of the member is_free in struct s (line 67). -/
def off_is_free : Nat := alignUp (off_size + sizeof_size_t) align_unsigned

/-- Offset of the member next in struct s (line 68). -/
def off_next : Nat := alignUp (off_is_free + sizeof_unsigned) align_ptr

/-- Alignment of struct s: the maximum member alignment. -/
def struct_align : Nat := max (max align_size_t align_unsigned) align_ptr

/-- sizeof the anonymous struct s inside union header: the end offset
rounded up to the struct alignment. -/
def struct_size : Nat := alignUp (off_next + sizeof_ptr) struct_align

/-- sizeof the C type ALIGN, that is char[16] (line 55). -/
def sizeof_stub : Nat := 16

/-- sizeof(union header) = sizeof(header_t): the largest member size,
rounded up to the union alignment (lines 64 to 72).  The pointer
arithmetic `head_ + 1` and `(header_t*)block - 1` in malloc and free
moves by exactly this many bytes. -/
def header_size : Nat := alignUp (max struct_size sizeof_stub) (max struct_align 1)

/-- sizeof(head_) at line 103: head_ is a local variable of pointer type
header_t*, so this is the size of a pointer, not of union header. -/
def sizeof_head_var : Nat := sizeof_ptr

/-- One header record of the block list: its address, its stored payload
size (member size) and its liveness flag (member is_free).  The next
link is implicit in the position within the chain list. -/
structure Block where
  addr : Nat
  size : Nat
  is_free : Bool
deriving DecidableEq, Repr

/-- The mutable allocator state: the program break, the chain of header
records reachable from head in link order, and the values of the global
variables head and tail (line 73) as optional addresses. -/
structure AllocState where
  brk : Nat
  blocks : List Block
  head : Option Nat
  tail : Option Nat
deriving DecidableEq, Repr

/-- The initial state: empty list, head = tail = NULL, break at b0. -/
def init (b0 : Nat) : AllocState := ⟨b0, [], none, none⟩

/-- get_free_block (lines 125 to 134): linear scan of the chain from
head; returns the first record with is_free set and size at least sz.
The source lines `head_ *curr = head;` and `curr = curr->next;` are
read as `header_t *curr = head;` and `curr = curr->s.next;`, the only
typing that compiles. -/
def get_free_block (sz : Nat) : List Block → Option Block
  | [] => none
  | b :: rest =>
    if b.is_free && decide (sz ≤ b.size) then some b else get_free_block sz rest

/-- The write `head_->s.is_free = 0` on the hit path of malloc
(line 91): clear the liveness flag of the record that the first-fit
scan returned, leaving every other record and the stored sizes alone. -/
def mark_first_fit (sz : Nat) : List Block → List Block
  | [] => []
  | b :: rest =>
    if b.is_free && decide (sz ≤ b.size) then { b with is_free := false } :: rest
    else b :: mark_first_fit sz rest

/-- malloc (lines 79 to 123).  Returns the payload pointer (`none` for
NULL), the post state, and whether the global lock was acquired.
The grow path computes total_sz = sizeof(head_) + size (line 103),
where head_ is a pointer variable, and appends the new record at the
old break with next = NULL, updating head and tail as lines 116 to
120 do.  The returned payload is head_ + 1, one sizeof(header_t)
past the record address. -/
def malloc (sbrk_ok : Bool) (size : Nat) (s : AllocState) :
    Option Nat × AllocState × Bool :=
  if size = 0 then (none, s, false)
  else
    match get_free_block size s.blocks with
    | some b =>
      (some (b.addr + header_size), { s with blocks := mark_first_fit size s.blocks }, true)
    | none =>
      if sbrk_ok then
        (some (s.brk + header_size),
          { brk := s.brk + sizeof_head_var + size,
            blocks := s.blocks ++ [⟨s.brk, size, false⟩],
            head := match s.head with | none => some s.brk | some h => some h,
            tail := some s.brk }, true)
      else (none, s, true)

/-- Reading the header record stored at address a: the first record of
the chain whose address is a (the C code reads it directly from memory
at `(header_t*)block - 1`). -/
def lookup_block (a : Nat) : List Block → Option Block
  | [] => none
  | b :: rest => if b.addr = a then some b else lookup_block a rest

/-- The write `header->s.is_free = 1` (line 169): set the liveness flag
of the record stored at address a. -/
def mark_free_at (a : Nat) : List Block → List Block
  | [] => []
  | b :: rest =>
    if b.addr = a then { b with is_free := true } :: rest else b :: mark_free_at a rest

/-- The scan of free at lines 156 to 163: walk the chain from head;
at the first node whose next link equals the tail pointer t, set that
node's next to NULL (cutting the chain there) and make it the new
tail.  Returns the resulting chain and the new tail address when the
cut happened (`none` means the loop never fired and tail is kept). -/
def truncate_tail (t : Option Nat) : List Block → List Block × Option Nat
  | [] => ([], none)
  | b :: rest =>
    match rest with
    | [] => if t = none then ([b], some b.addr) else ([b], none)
    | c :: _ =>
      if some c.addr = t then ([b], some b.addr)
      else
        let r := truncate_tail t rest
        (b :: r.1, r.2)

/-- free (lines 141 to 171).  Returns the post state and whether the
global lock was acquired.  For a non NULL pointer q the header is read
at q - sizeof(header_t); if q + header.size equals the current break
the list is truncated (head == tail sets both to NULL, otherwise the
scan of `truncate_tail` runs) and the break is moved down by
sizeof(header_t) + header.size; otherwise is_free is set. -/
def free (p : Option Nat) (s : AllocState) : AllocState × Bool :=
  match p with
  | none => (s, false)
  | some q =>
    match lookup_block (q - header_size) s.blocks with
    | none => (s, true)
    | some h =>
      if q + h.size = s.brk then
        if s.head = s.tail then
          ({ brk := s.brk - (header_size + h.size), blocks := [],
             head := none, tail := none }, true)
        else
          let r := truncate_tail s.tail s.blocks
          ({ brk := s.brk - (header_size + h.size), blocks := r.1,
             head := s.head,
             tail := match r.2 with | some a2 => some a2 | none => s.tail }, true)
      else ({ s with blocks := mark_free_at (q - header_size) s.blocks }, true)

/-- One external operation: an allocation attempt (with the outcome of
the sbrk call, should it be reached) or a deallocation. -/
inductive Op where
  | alloc (sbrk_ok : Bool) (size : Nat)
  | dealloc (p : Option Nat)

/-- The state transition of one operation. -/
def step (s : AllocState) : Op → AllocState
  | Op.alloc ok sz => (malloc ok sz s).2.1
  | Op.dealloc p => (free p s).1

/-- Running a sequence of operations from the empty initial state. -/
def run (b0 : Nat) (ops : List Op) : AllocState := ops.foldl step (init b0)

/-- Well formed state: chain addresses are distinct and the head and
tail variables hold the addresses of the first and last chain record. -/
def wf (s : AllocState) : Prop :=
  (s.blocks.map Block.addr).Nodup ∧
  s.head = s.blocks.head?.map Block.addr ∧
  s.tail = s.blocks.getLast?.map Block.addr

instance (s : AllocState) : Decidable (wf s) := by unfold wf; infer_instance

/-- Intermediate state of the trace refuting C6: after allocate(17),
allocate(20) and deallocate of the first pointer (payload 24), reaching
a state whose only reusable record has size 17. -/
def c6_pre : AllocState :=
  (free (some 24) (malloc true 20 (malloc true 17 (init 0)).2.1).2.1).1

/-- State of the C6 trace after the scenario allocation allocate(20)
(which returns payload 77) and its deallocation. -/
def c6_mid : AllocState :=
  (free (malloc true 20 c6_pre).1 (malloc true 20 c6_pre).2.1).1

/-- State of the C7 trace after allocate(16), allocate(8) (returning
payload 48, never deallocated) and deallocate of payload 24, whose
record passes the end-of-heap test because the break only grew by
sizeof(head_) + size: the break shrinks below the live record. -/
def c7_pre : AllocState :=
  (free (some 24) (malloc true 8 (malloc true 16 (init 0)).2.1).2.1).1

/- ------------------------------------------------------------------ -/
/- Helper lemmas                                                       -/
/- ------------------------------------------------------------------ -/

theorem get_free_block_eq_find? (sz : Nat) (l : List Block) :
    get_free_block sz l = l.find? (fun b => b.is_free && decide (sz ≤ b.size)) := by
  induction l with
  | nil => rfl
  | cons b rest ih =>
    simp only [get_free_block, List.find?]
    by_cases hb : (b.is_free && decide (sz ≤ b.size)) = true
    · simp [hb]
    · simp [hb, ih]

theorem mark_first_fit_shape (sz : Nat) (l : List Block) :
    (mark_first_fit sz l).map (fun b => (b.addr, b.size))
      = l.map (fun b => (b.addr, b.size)) := by
  induction l with
  | nil => rfl
  | cons b rest ih =>
    simp only [mark_first_fit]
    by_cases hb : (b.is_free && decide (sz ≤ b.size)) = true
    · simp [hb]
    · simp [hb, ih]

theorem get_free_block_none_of_all_used (sz : Nat) (l : List Block)
    (h : ∀ b ∈ l, b.is_free = false) : get_free_block sz l = none := by
  induction l with
  | nil => rfl
  | cons b rest ih =>
    have hb := h b (List.mem_cons_self b rest)
    simp only [get_free_block, hb, Bool.false_and, if_neg Bool.false_ne_true]
    exact ih fun x hx => h x (List.mem_cons_of_mem b hx)

theorem get_free_block_append_last (sz : Nat) (l : List Block) (c : Block)
    (h : ∀ b ∈ l, b.is_free = false) (hc : c.is_free = true) (hsz : sz ≤ c.size) :
    get_free_block sz (l ++ [c]) = some c := by
  induction l with
  | nil => simp [get_free_block, hc, hsz]
  | cons b rest ih =>
    have hb := h b (List.mem_cons_self b rest)
    simp only [List.cons_append, get_free_block, hb, Bool.false_and,
      if_neg Bool.false_ne_true]
    exact ih fun x hx => h x (List.mem_cons_of_mem b hx)

theorem lookup_block_append_last (a : Nat) (l : List Block) (c : Block)
    (h : ∀ b ∈ l, b.addr ≠ a) (hc : c.addr = a) :
    lookup_block a (l ++ [c]) = some c := by
  induction l with
  | nil => simp [lookup_block, hc]
  | cons b rest ih =>
    have hb := h b (List.mem_cons_self b rest)
    simp only [List.cons_append, lookup_block, if_neg hb]
    exact ih fun x hx => h x (List.mem_cons_of_mem b hx)

theorem mark_free_at_append_last (a : Nat) (l : List Block) (c : Block)
    (h : ∀ b ∈ l, b.addr ≠ a) (hc : c.addr = a) :
    mark_free_at a (l ++ [c]) = l ++ [{ c with is_free := true }] := by
  induction l with
  | nil => simp [mark_free_at, hc]
  | cons b rest ih =>
    have hb := h b (List.mem_cons_self b rest)
    simp only [List.cons_append, mark_free_at, if_neg hb, List.cons.injEq, true_and]
    exact ih fun x hx => h x (List.mem_cons_of_mem b hx)

theorem lookup_mark_free_at (a : Nat) (l : List Block) (h : Block)
    (hl : lookup_block a l = some h) :
    lookup_block a (mark_free_at a l) = some { h with is_free := true } := by
  induction l with
  | nil => simp [lookup_block] at hl
  | cons b rest ih =>
    by_cases hb : b.addr = a
    · simp only [lookup_block, if_pos hb] at hl
      cases hl
      simp [mark_free_at, lookup_block, hb]
    · simp only [lookup_block, if_neg hb] at hl
      simp only [mark_free_at, if_neg hb, lookup_block]
      exact ih hl

theorem truncate_tail_cons_cons (t : Option Nat) (b c : Block) (rest : List Block) :
    truncate_tail t (b :: c :: rest)
      = if some c.addr = t then ([b], some b.addr)
        else (b :: (truncate_tail t (c :: rest)).1, (truncate_tail t (c :: rest)).2) := by
  rfl

theorem truncate_tail_last (l : List Block)
    (hnd : (l.map Block.addr).Nodup) (hlen : 2 ≤ l.length) :
    truncate_tail (l.getLast?.map Block.addr) l
      = (l.dropLast, l.dropLast.getLast?.map Block.addr) := by
  induction l with
  | nil => simp at hlen
  | cons b rest ih =>
    cases rest with
    | nil => simp at hlen
    | cons c rest2 =>
      cases rest2 with
      | nil =>
        have h1 : ([b, c] : List Block).getLast?.map Block.addr = some c.addr := rfl
        rw [h1, truncate_tail_cons_cons, if_pos rfl]
        rfl
      | cons d rest3 =>
        have hgl : (b :: c :: d :: rest3).getLast? = (c :: d :: rest3).getLast? :=
          List.getLast?_cons_cons ..
        have hgl2 : (c :: d :: rest3).getLast? = (d :: rest3).getLast? :=
          List.getLast?_cons_cons ..
        have hx : (d :: rest3).getLast? = some ((d :: rest3).getLast (by simp)) :=
          List.getLast?_eq_getLast_of_ne_nil (by simp)
        have hmem : (d :: rest3).getLast (by simp) ∈ d :: rest3 := List.getLast_mem _
        have hcne : ¬ some c.addr
            = ((b :: c :: d :: rest3).getLast?.map Block.addr) := by
          rw [hgl, hgl2, hx]
          intro hEq0
          have hEq : c.addr = Block.addr ((d :: rest3).getLast (by simp)) := by
            simpa using hEq0
          have hndtail : (c.addr :: (d :: rest3).map Block.addr).Nodup := by
            simpa using hnd.of_cons
          have : c.addr ∉ (d :: rest3).map Block.addr :=
            (List.nodup_cons.mp hndtail).1
          exact this (hEq ▸ List.mem_map_of_mem Block.addr hmem)
        have hrec := ih (by simpa using hnd.of_cons) (by simp)
        rw [hgl] at hcne ⊢
        rw [truncate_tail_cons_cons, if_neg hcne, hrec]
        rfl

theorem wf_two_le_length (s : AllocState) (hwf : wf s) (hne : s.head ≠ s.tail) :
    2 ≤ s.blocks.length := by
  obtain ⟨hnd, hh, ht⟩ := hwf
  match hbl : s.blocks with
  | [] => rw [hbl] at hh ht; simp at hh ht; exact absurd (hh.trans ht.symm) hne
  | [b] => rw [hbl] at hh ht; simp at hh ht; exact absurd (hh.trans ht.symm) hne
  | b :: c :: rest => simp

theorem step_sync (s : AllocState) (op : Op)
    (h : s.head = none ↔ s.tail = none) :
    (step s op).head = none ↔ (step s op).tail = none := by
  cases op with
  | alloc ok sz =>
    simp only [step, malloc]
    by_cases h0 : sz = 0
    · simpa [h0] using h
    · simp only [if_neg h0]
      cases hg : get_free_block sz s.blocks with
      | some b => simpa using h
      | none =>
        cases ok with
        | false => simpa using h
        | true =>
          cases hh : s.head <;> simp
  | dealloc p =>
    cases p with
    | none => exact h
    | some q =>
      cases hl : lookup_block (q - header_size) s.blocks with
      | none =>
        simp only [step, free, hl]
        exact h
      | some hb =>
        by_cases hc : q + hb.size = s.brk
        · by_cases ht : s.head = s.tail
          · simp [step, free, hl, hc, ht]
          · have hh : s.head ≠ none := fun hn => ht (hn.trans (h.mp hn).symm)
            have htl : s.tail ≠ none := fun hn => hh (h.mpr hn)
            simp only [step, free, hl, if_pos hc, if_neg ht]
            cases hr : (truncate_tail s.tail s.blocks).2 with
            | some a2 =>
              simp only [hr]
              exact ⟨fun hx => absurd hx hh, fun hx => nomatch hx⟩
            | none =>
              simp only [hr]
              exact ⟨fun hx => absurd hx hh, fun hx => absurd hx htl⟩
        · simp only [step, free, hl, if_neg hc]
          exact h

/- ------------------------------------------------------------------ -/
/- Theorems                                                            -/
/- ------------------------------------------------------------------ -/

/-- C1: the claim says the grow path extends the break by
footprint(HeaderRecord) + size.  The code (line 103) computes
total_sz = sizeof(head_) + size where head_ is a header_t* pointer
variable, so a request of size 1 from the empty state extends the
break by 8 + 1 = 9 bytes, not by sizeof(header_t) + 1 = 25 bytes,
contradicting the in-file comment at line 41. -/
theorem c1_grow_uses_pointer_size :
    (malloc true 1 (init 0)).2.1.brk = (init 0).brk + sizeof_head_var + 1 ∧
    sizeof_head_var + 1 = 9 ∧ header_size + 1 = 25 ∧ (9 : Nat) ≠ 25 := by
  decide

/-- C2: the claim says deallocating all blocks of a LIFO sequence
returns the break to its pre-sequence value.  From the empty state at
break 0, allocate(1) followed by deallocate of its result leaves the
break at 9 and the record merely marked free: because the break grew
by sizeof(head_) + size = 9 while the end-of-heap test compares
payload + size = 24 + 1 = 25 with the break, the release path is
never taken for a freshly grown block. -/
theorem c2_lifo_no_reclamation :
    (free (malloc true 1 (init 0)).1 (malloc true 1 (init 0)).2.1).1.brk = 9 ∧
    (free (malloc true 1 (init 0)).1 (malloc true 1 (init 0)).2.1).1.blocks
      = [⟨0, 1, true⟩] ∧
    (9 : Nat) ≠ (init 0).brk := by
  decide

/-- C3: the claim says the header footprint is a multiple of 16 bytes
and payloads are 16-byte aligned.  Under LP64 the anonymous struct
{size_t; unsigned; header_t*} occupies 24 bytes, and a union takes the
largest member size, so sizeof(union header) = max(24, 16) = 24: the
footprint is 8 mod 16, and from a 16-byte aligned base (0) the first
payload address returned is 24, which is not 16-byte aligned. -/
theorem c3_footprint_not_16_aligned :
    struct_size = 24 ∧ header_size = 24 ∧ header_size % 16 = 8 ∧
    (malloc true 1 (init 0)).1 = some 24 ∧ 24 % 16 ≠ 0 := by
  decide

/-- C7: the claim says payload ranges of live blocks never overlap.
Trace from the empty state at break 0: allocate(16) returns 24;
allocate(8) returns 48 (live, payload range 48 to 56); deallocate(24)
passes the end-of-heap test (24 + 16 = 40 = break, an artifact of the
break growing by only sizeof(head_) + size), truncates the still-live
tail record out of the list and shrinks the break to 0; allocate(30)
then grows from break 0 again and returns payload 24 with range 24 to
54, overlapping the live range 48 to 56 of the second allocation. -/
theorem c7_live_payloads_overlap :
    (malloc true 8 (malloc true 16 (init 0)).2.1).1 = some 48 ∧
    (malloc true 30 c7_pre).1 = some 24 ∧
    (48 : Nat) < 24 + 30 ∧ (24 : Nat) < 48 + 8 := by
  decide

/-- C8: when the free-block search misses and sbrk fails, malloc
returns NULL with the state (break, head, tail, all records) exactly
unchanged, having acquired and released the lock (lines 104 to 108). -/
theorem c8_oom_no_mutation (s : AllocState) (sz : Nat) (h1 : sz ≠ 0)
    (h2 : get_free_block sz s.blocks = none) :
    malloc false sz s = (none, s, true) := by
  simp [malloc, h1, h2]

/-- Witness for c8_oom_no_mutation at the empty state and size 1. -/
theorem c8_oom_no_mutation_witness :
    ((1 : Nat) ≠ 0 ∧ get_free_block 1 (init 0).blocks = none) ∧
    malloc false 1 (init 0) = (none, init 0, true) :=
  ⟨⟨by decide, by decide⟩, c8_oom_no_mutation (init 0) 1 (by decide) (by decide)⟩

/-- C9: malloc with size 0 returns NULL without acquiring the lock and
without touching any state (lines 83 to 84), and free of NULL is a
no-op that does not acquire the lock either (lines 146 to 147). -/
theorem c9_zero_size_and_null_free (ok : Bool) (s : AllocState) :
    malloc ok 0 s = (none, s, false) ∧ free none s = (s, false) := by
  constructor <;> rfl

/-- C5: get_free_block scans the chain from head in list order and
returns the first record with is_free set and size at least the
request; the reuse path changes no stored address or size; and the
scan returns none when the list is empty or nothing qualifies. -/
theorem c5_first_fit_search (sz : Nat) (l : List Block) (hsz : 0 < sz) :
    get_free_block sz l = l.find? (fun b => b.is_free && decide (sz ≤ b.size)) ∧
    (mark_first_fit sz l).map (fun b => (b.addr, b.size))
      = l.map (fun b => (b.addr, b.size)) ∧
    ((∀ b ∈ l, ¬(b.is_free = true ∧ sz ≤ b.size)) → get_free_block sz l = none) := by
  refine ⟨get_free_block_eq_find? sz l, mark_first_fit_shape sz l, fun hall => ?_⟩
  rw [get_free_block_eq_find? sz l, List.find?_eq_none]
  intro x hx
  simp only [Bool.and_eq_true, decide_eq_true_eq]
  exact fun hbad => hall x hx hbad

/-- Witness for c5_first_fit_search: a two-element list where the first
record already qualifies for a request of 1. -/
theorem c5_first_fit_search_witness :
    (0 : Nat) < 1 ∧
    (get_free_block 1 [⟨0, 5, true⟩, ⟨29, 3, true⟩]
        = List.find? (fun b => b.is_free && decide (1 ≤ b.size))
            [⟨0, 5, true⟩, ⟨29, 3, true⟩] ∧
     (mark_first_fit 1 [⟨0, 5, true⟩, ⟨29, 3, true⟩]).map (fun b => (b.addr, b.size))
        = ([⟨0, 5, true⟩, ⟨29, 3, true⟩] : List Block).map (fun b => (b.addr, b.size)) ∧
     ((∀ b ∈ ([⟨0, 5, true⟩, ⟨29, 3, true⟩] : List Block),
          ¬(b.is_free = true ∧ 1 ≤ b.size)) →
        get_free_block 1 [⟨0, 5, true⟩, ⟨29, 3, true⟩] = none)) :=
  ⟨by decide, c5_first_fit_search 1 [⟨0, 5, true⟩, ⟨29, 3, true⟩] (by decide)⟩

/-- C10: in every state reachable from the empty list by any sequence
of allocate and deallocate operations, the head variable is NULL if
and only if the tail variable is NULL: the append path of malloc sets
both and the truncate paths of free clear or keep both together. -/
theorem c10_head_tail_sync (b0 : Nat) (ops : List Op) :
    (run b0 ops).head = none ↔ (run b0 ops).tail = none := by
  have key : ∀ (l : List Op) (s : AllocState),
      (s.head = none ↔ s.tail = none) →
      ((l.foldl step s).head = none ↔ (l.foldl step s).tail = none) := by
    intro l
    induction l with
    | nil => exact fun s hs => hs
    | cons op rest ih => exact fun s hs => ih (step s op) (step_sync s op hs)
  exact key ops (init b0) Iff.rfl

/-- C6 fails as stated: from the reachable state c6_pre, whose list
holds a reusable record of size 17 at address 0, the scenario with
N = 20 and M = 17 gives allocate(20) = 77, deallocate(77), and then
allocate(17) returns 24 (first-fit picks the older record of size 17),
not the same address 77 that allocate(20) returned. -/
theorem c6_counterexample :
    (0 : Nat) < 17 ∧ (17 : Nat) ≤ 20 ∧
    (malloc true 20 c6_pre).1 = some 77 ∧
    (malloc true 17 c6_mid).1 = some 24 ∧
    some (24 : Nat) ≠ some (77 : Nat) := by
  decide

/-- C6 amended: the round trip holds from any state with no reusable
record (and no stale record at the current break address): allocate(N)
returns the payload at the old break, deallocate marks that record
free (the end-of-heap test fails because the break grew by
sizeof(head_) + N, not sizeof(header_t) + N), and allocate(M) with
0 < M and M <= N reuses it, returning the identical address with the
break unchanged during the second allocation. -/
theorem c6_amended_no_free_blocks (s : AllocState) (N M : Nat)
    (hN : 0 < N) (hM : 0 < M) (hMN : M ≤ N)
    (hfree : ∀ b ∈ s.blocks, b.is_free = false)
    (haddr : ∀ b ∈ s.blocks, b.addr ≠ s.brk) :
    (malloc true N s).1 = some (s.brk + header_size) ∧
    (malloc true M (free (malloc true N s).1 (malloc true N s).2.1).1).1
      = (malloc true N s).1 ∧
    (malloc true M (free (malloc true N s).1 (malloc true N s).2.1).1).2.1.brk
      = (free (malloc true N s).1 (malloc true N s).2.1).1.brk := by
  have hN0 : N ≠ 0 := Nat.pos_iff_ne_zero.mp hN
  have hM0 : M ≠ 0 := Nat.pos_iff_ne_zero.mp hM
  have hmiss := get_free_block_none_of_all_used N s.blocks hfree
  have e1 : malloc true N s
      = (some (s.brk + header_size),
         ⟨s.brk + sizeof_head_var + N, s.blocks ++ [⟨s.brk, N, false⟩],
          match s.head with | none => some s.brk | some hd => some hd,
          some s.brk⟩, true) := by
    simp only [malloc, hN0, hmiss, if_false, if_true]
  have hlk := lookup_block_append_last s.brk s.blocks ⟨s.brk, N, false⟩ haddr rfl
  have h24 : header_size = 24 := by decide
  have h8 : sizeof_head_var = 8 := by decide
  have hcond : ¬ (s.brk + header_size + N = s.brk + sizeof_head_var + N) := by
    omega
  have hmk := mark_free_at_append_last s.brk s.blocks ⟨s.brk, N, false⟩ haddr rfl
  have e2 : free (some (s.brk + header_size))
        (⟨s.brk + sizeof_head_var + N, s.blocks ++ [⟨s.brk, N, false⟩],
          match s.head with | none => some s.brk | some hd => some hd,
          some s.brk⟩ : AllocState)
      = (⟨s.brk + sizeof_head_var + N, s.blocks ++ [⟨s.brk, N, true⟩],
          match s.head with | none => some s.brk | some hd => some hd,
          some s.brk⟩, true) := by
    simp only [free, Nat.add_sub_cancel, hlk, hcond, if_false, hmk]
  have hfit := get_free_block_append_last M s.blocks ⟨s.brk, N, true⟩ hfree rfl hMN
  refine ⟨by rw [e1], ?_, ?_⟩
  · rw [e1]
    show (malloc true M _).1 = _
    rw [e2]
    show (malloc true M _).1 = _
    simp only [malloc, hM0, hfit, if_false]
  · rw [e1]
    show (malloc true M _).2.1.brk = _
    rw [e2]
    show (malloc true M _).2.1.brk = _
    simp only [malloc, hM0, hfit, if_false]

/-- Witness for c6_amended_no_free_blocks at the empty state with
N = M = 1. -/
theorem c6_amended_no_free_blocks_witness :
    ((0 : Nat) < 1 ∧ (∀ b ∈ (init 0).blocks, b.is_free = false) ∧
     (∀ b ∈ (init 0).blocks, b.addr ≠ (init 0).brk)) ∧
    ((malloc true 1 (init 0)).1 = some ((init 0).brk + header_size) ∧
     (malloc true 1 (free (malloc true 1 (init 0)).1 (malloc true 1 (init 0)).2.1).1).1
       = (malloc true 1 (init 0)).1 ∧
     (malloc true 1 (free (malloc true 1 (init 0)).1 (malloc true 1 (init 0)).2.1).1).2.1.brk
       = (free (malloc true 1 (init 0)).1 (malloc true 1 (init 0)).2.1).1.brk) :=
  ⟨⟨by decide, by decide, by decide⟩,
   c6_amended_no_free_blocks (init 0) 1 1 (by decide) (by decide) (by decide)
     (by decide) (by decide)⟩

/-- C4: for a well formed state and a pointer q whose header record h
is in the list, free behaves as claimed: when
h.addr + sizeof(header_t) + h.size equals the break, the list is
truncated (head = tail = NULL when head equals tail, otherwise the
predecessor of the tail becomes the new tail with its link cut) and
the break is contracted by sizeof(header_t) + h.size; otherwise only
the is_free flag of the record is set and break, head, tail and list
membership are unchanged. -/
theorem c4_free_semantics (s : AllocState) (q : Nat) (h : Block)
    (hwf : wf s)
    (hlk : lookup_block (q - header_size) s.blocks = some h)
    (hq : q = h.addr + header_size) :
    (q + h.size = s.brk →
      ((free (some q) s).1.brk + (header_size + h.size) = s.brk ∧
       (s.head = s.tail →
          (free (some q) s).1.head = none ∧ (free (some q) s).1.tail = none ∧
          (free (some q) s).1.blocks = []) ∧
       (s.head ≠ s.tail →
          (free (some q) s).1.blocks = s.blocks.dropLast ∧
          (free (some q) s).1.tail = s.blocks.dropLast.getLast?.map Block.addr ∧
          (free (some q) s).1.head = s.head))) ∧
    (q + h.size ≠ s.brk →
      ((free (some q) s).1.brk = s.brk ∧
       (free (some q) s).1.head = s.head ∧
       (free (some q) s).1.tail = s.tail ∧
       (free (some q) s).1.blocks = mark_free_at (q - header_size) s.blocks ∧
       lookup_block (q - header_size) (free (some q) s).1.blocks
         = some { h with is_free := true })) := by
  constructor
  · intro hcond
    by_cases ht : s.head = s.tail
    · have e : (free (some q) s).1
          = ⟨s.brk - (header_size + h.size), [], none, none⟩ := by
        simp only [free, hlk, hcond, ht, eq_self_iff_true, if_true]
      rw [e]
      refine ⟨?_, fun _ => ⟨rfl, rfl, rfl⟩, fun hne => absurd ht hne⟩
      show s.brk - (header_size + h.size) + (header_size + h.size) = s.brk
      omega
    · have hlen := wf_two_le_length s hwf ht
      have htt : truncate_tail s.tail s.blocks
          = (s.blocks.dropLast, s.blocks.dropLast.getLast?.map Block.addr) := by
        rw [hwf.2.2]
        exact truncate_tail_last s.blocks hwf.1 hlen
      have hne2 : s.blocks.dropLast ≠ [] := by
        intro hnil
        have hl := List.length_dropLast s.blocks
        rw [hnil] at hl
        simp at hl
        omega
      obtain ⟨x, hx⟩ : ∃ x, s.blocks.dropLast.getLast? = some x :=
        ⟨_, List.getLast?_eq_getLast_of_ne_nil hne2⟩
      have e : (free (some q) s).1
          = ⟨s.brk - (header_size + h.size), (truncate_tail s.tail s.blocks).1,
             s.head,
             match (truncate_tail s.tail s.blocks).2 with
             | some a2 => some a2
             | none => s.tail⟩ := by
        simp only [free, hlk, hcond, eq_self_iff_true, if_true, ht, if_false]
      rw [e, htt]
      refine ⟨?_, fun heq => absurd heq ht, fun _ => ⟨rfl, ?_, rfl⟩⟩
      · show s.brk - (header_size + h.size) + (header_size + h.size) = s.brk
        omega
      · rw [hx]
        rfl
  · intro hcond
    have e : (free (some q) s).1
        = { s with blocks := mark_free_at (q - header_size) s.blocks } := by
      simp only [free, hlk, hcond, if_false]
    rw [e]
    exact ⟨rfl, rfl, rfl, rfl, lookup_mark_free_at _ _ _ hlk⟩

/-- Witness for c4_free_semantics: a one-block state at break 25 where
the block of size 1 at address 0 passes the end-of-heap test, so free
empties the list and contracts the break. -/
theorem c4_free_semantics_witness :
    wf ⟨25, [⟨0, 1, false⟩], some 0, some 0⟩ ∧
    ((free (some 24) ⟨25, [⟨0, 1, false⟩], some 0, some 0⟩).1.brk
        + (header_size + 1) = 25 ∧
     (free (some 24) ⟨25, [⟨0, 1, false⟩], some 0, some 0⟩).1.head = none ∧
     (free (some 24) ⟨25, [⟨0, 1, false⟩], some 0, some 0⟩).1.tail = none ∧
     (free (some 24) ⟨25, [⟨0, 1, false⟩], some 0, some 0⟩).1.blocks = []) := by
  have h := c4_free_semantics ⟨25, [⟨0, 1, false⟩], some 0, some 0⟩ 24 ⟨0, 1, false⟩
    (by decide) (by decide) (by decide)
  have h2 := h.1 (by decide)
  exact ⟨by decide, h2.1, (h2.2.1 rfl).1, (h2.2.1 rfl).2.1, (h2.2.1 rfl).2.2⟩

end MallocFree
